import Mathlib

/-!
Verification development for the tab-age-checker browser extension.

The repository has two background-worker variants:
* `src/unnamed/part_000` — the richer worker (deleted-tab history, auto-delete,
  rounded HSL serialization, decimal-tolerant HSL parser);
* `src/background.js` — the simpler worker (no history, unrounded HSL
  serialization, integer-only HSL parser).

Numbers are modelled as rationals (JavaScript arithmetic on the small values
involved here), timestamps as rationals (milliseconds since epoch), and the
tab ledger as a function from tab id to an optional record.
-/

/-- JavaScript `Math.round`: round half toward positive infinity. -/
def jsRound (q : ℚ) : ℤ := ⌊q + 1/2⌋

/-- Zone 1 of `getAgeColor` (both variants): fixed fresh green,
`hue = 140, saturation = 70, lightness = 45`. -/
def freshColor : ℚ × ℚ × ℚ := (140, 70, 45)

/-- Zone 2 of `getAgeColor` (both variants): with
`progress = (minutesInactive - freshThreshold) / (staleThreshold - freshThreshold)`,
`hue = 140 - progress*100`, `saturation = 70 + progress*15`,
`lightness = 45 + progress*5`. -/
def zone2Color (m f s : ℚ) : ℚ × ℚ × ℚ :=
  (140 - ((m - f) / (s - f)) * 100,
   70 + ((m - f) / (s - f)) * 15,
   45 + ((m - f) / (s - f)) * 5)

/-- Zone 3 of `getAgeColor` (both variants): with
`progress = (minutesInactive - staleThreshold) / (oldThreshold - staleThreshold)`,
`hue = 40 - progress*40`, `saturation = 85`, `lightness = 50 - progress*5`. -/
def zone3Color (m s o : ℚ) : ℚ × ℚ × ℚ :=
  (40 - ((m - s) / (o - s)) * 40,
   85,
   50 - ((m - s) / (o - s)) * 5)

/-- Zone 4 of `getAgeColor` (both variants): fixed deep red,
`hue = 0, saturation = 80, lightness = 40`. -/
def veryOldColor : ℚ × ℚ × ℚ := (0, 80, 40)

/-- The `hue`/`saturation`/`lightness` values computed by `getAgeColor`
(before any rounding or serialization); the branch structure mirrors the
`if`/`else if` chain of the source (boundaries inclusive to the lower zone). -/
def ageHSL (minutesInactive freshThreshold staleThreshold oldThreshold : ℚ) :
    ℚ × ℚ × ℚ :=
  if minutesInactive ≤ freshThreshold then freshColor
  else if minutesInactive ≤ staleThreshold then
    zone2Color minutesInactive freshThreshold staleThreshold
  else if minutesInactive ≤ oldThreshold then
    zone3Color minutesInactive staleThreshold oldThreshold
  else veryOldColor

/-- Evaluating the classifier exactly in zone 2. -/
theorem ageHSL_zone2 (m f s o : ℚ) (h1 : f < m) (h2 : m ≤ s) :
    ageHSL m f s o = zone2Color m f s := by
  unfold ageHSL
  rw [if_neg (not_le.mpr h1), if_pos h2]

/-- Evaluating the classifier exactly in zone 3. -/
theorem ageHSL_zone3 (m f s o : ℚ) (h0 : f < s) (h1 : s < m) (h2 : m ≤ o) :
    ageHSL m f s o = zone3Color m s o := by
  unfold ageHSL
  rw [if_neg (not_le.mpr (h0.trans h1)), if_neg (not_le.mpr h1), if_pos h2]

/-- Hue of the zone-2 formula is at least 40 on the zone. -/
theorem zone2_hue_lower (m f s : ℚ) (hfs : f < s) (h2 : m ≤ s) :
    40 ≤ (zone2Color m f s).1 := by
  unfold zone2Color
  have hpos : (0:ℚ) < s - f := by linarith
  have : (m - f) / (s - f) ≤ 1 := by
    rw [div_le_one hpos]; linarith
  nlinarith

/-- Hue of the zone-2 formula is below 140 strictly inside the zone. -/
theorem zone2_hue_upper (m f s : ℚ) (hfs : f < s) (h1 : f < m) :
    (zone2Color m f s).1 < 140 := by
  unfold zone2Color
  have hpos : (0:ℚ) < s - f := by linarith
  have : 0 < (m - f) / (s - f) := div_pos (by linarith) hpos
  nlinarith

/-- Hue of the zone-3 formula is nonnegative on the zone. -/
theorem zone3_hue_lower (m s o : ℚ) (hso : s < o) (h2 : m ≤ o) :
    0 ≤ (zone3Color m s o).1 := by
  unfold zone3Color
  have hpos : (0:ℚ) < o - s := by linarith
  have : (m - s) / (o - s) ≤ 1 := by
    rw [div_le_one hpos]; linarith
  nlinarith

/-- Hue of the zone-3 formula is below 40 strictly inside the zone. -/
theorem zone3_hue_upper (m s o : ℚ) (hso : s < o) (h1 : s < m) :
    (zone3Color m s o).1 < 40 := by
  unfold zone3Color
  have hpos : (0:ℚ) < o - s := by linarith
  have : 0 < (m - s) / (o - s) := div_pos (by linarith) hpos
  nlinarith

/-- The zone-2 hue formula is antitone in `minutesInactive`. -/
theorem zone2_hue_antitone (a b f s : ℚ) (hfs : f < s) (hab : a ≤ b) :
    (zone2Color b f s).1 ≤ (zone2Color a f s).1 := by
  unfold zone2Color
  have hpos : (0:ℚ) < s - f := by linarith
  have : (a - f) / (s - f) ≤ (b - f) / (s - f) :=
    div_le_div_of_nonneg_right (by linarith) hpos.le
  nlinarith

/-- The zone-3 hue formula is antitone in `minutesInactive`. -/
theorem zone3_hue_antitone (a b s o : ℚ) (hso : s < o) (hab : a ≤ b) :
    (zone3Color b s o).1 ≤ (zone3Color a s o).1 := by
  unfold zone3Color
  have hpos : (0:ℚ) < o - s := by linarith
  have : (a - s) / (o - s) ≤ (b - s) / (o - s) :=
    div_le_div_of_nonneg_right (by linarith) hpos.le
  nlinarith

/-- Claim C3: for every threshold triple with
`freshThreshold < staleThreshold < oldThreshold`, the hue component of
`getAgeColor` is non-increasing as `minutesInactive` increases over the
interval from `freshThreshold` to `oldThreshold` (both for the interpolated
hue and for the `Math.round`ed hue that `part_000` serializes). -/
theorem getAgeColor_hue_antitone (f s o m1 m2 : ℚ)
    (hfs : f < s) (hso : s < o)
    (hm1 : f ≤ m1) (h12 : m1 ≤ m2) (hm2 : m2 ≤ o) :
    (ageHSL m2 f s o).1 ≤ (ageHSL m1 f s o).1 ∧
      jsRound (ageHSL m2 f s o).1 ≤ jsRound (ageHSL m1 f s o).1 := by
  have main : (ageHSL m2 f s o).1 ≤ (ageHSL m1 f s o).1 := by
    rcases le_or_lt m1 f with hz1 | hz1
    · -- m1 in zone 1: its hue is 140, an upper bound for every zone hue
      have e1 : ageHSL m1 f s o = freshColor := by
        unfold ageHSL; rw [if_pos hz1]
      rcases le_or_lt m2 f with hz2 | hz2
      · have e2 : ageHSL m2 f s o = freshColor := by
          unfold ageHSL; rw [if_pos hz2]
        rw [e1, e2]
      · rcases le_or_lt m2 s with hz2s | hz2s
        · rw [e1, ageHSL_zone2 m2 f s o hz2 hz2s]
          have := zone2_hue_upper m2 f s hfs hz2
          unfold freshColor; exact le_of_lt this
        · rw [e1, ageHSL_zone3 m2 f s o hfs hz2s hm2]
          have := zone3_hue_upper m2 s o hso hz2s
          show (zone3Color m2 s o).1 ≤ (140 : ℚ)
          linarith
    · rcases le_or_lt m1 s with hz1s | hz1s
      · -- m1 in zone 2
        rw [ageHSL_zone2 m1 f s o hz1 hz1s]
        rcases le_or_lt m2 s with hz2s | hz2s
        · rw [ageHSL_zone2 m2 f s o (lt_of_lt_of_le hz1 h12) hz2s]
          exact zone2_hue_antitone m1 m2 f s hfs h12
        · rw [ageHSL_zone3 m2 f s o hfs hz2s hm2]
          have h40 := zone3_hue_upper m2 s o hso hz2s
          have h40' := zone2_hue_lower m1 f s hfs hz1s
          linarith
      · -- m1 in zone 3 (and hence so is m2)
        rw [ageHSL_zone3 m1 f s o hfs hz1s (le_trans h12 hm2),
            ageHSL_zone3 m2 f s o hfs (lt_of_lt_of_le hz1s h12) hm2]
        exact zone3_hue_antitone m1 m2 s o hso h12
  refine ⟨main, ?_⟩
  unfold jsRound
  exact Int.floor_le_floor (by linarith)

/-- Witness for C3 at the concrete thresholds `1 < 2 < 3` and
`m1 = 1 ≤ m2 = 3`. -/
theorem getAgeColor_hue_antitone_witness :
    (ageHSL 3 1 2 3).1 ≤ (ageHSL 1 1 2 3).1 ∧
      jsRound (ageHSL 3 1 2 3).1 ≤ jsRound (ageHSL 1 1 2 3).1 :=
  getAgeColor_hue_antitone 1 2 3 1 3 (by norm_num) (by norm_num)
    (by norm_num) (by norm_num) (by norm_num)

/-- Claim C1, counterexample: at `freshThreshold = 1`, `staleThreshold = 2`,
`oldThreshold = 3`, evaluating the classifier at
`minutesInactive = oldThreshold = 3` (the zone below, zone 3) yields
`(0, 85, 45)`, while the zone above (zone 4) is the constant `(0, 80, 40)`:
saturation and lightness jump at the `oldThreshold` boundary, so the claimed
continuity at *every* threshold is false. -/
theorem ageColor_discontinuous_at_old :
    ageHSL 3 1 2 3 = (0, 85, 45) ∧ veryOldColor = (0, 80, 40) ∧
      ageHSL 3 1 2 3 ≠ veryOldColor := by
  refine ⟨?_, rfl, ?_⟩ <;> simp [ageHSL, zone3Color, freshColor, veryOldColor] <;> norm_num

/-- Claim C1 (amended): for `0 < freshThreshold < staleThreshold <
oldThreshold`, the classifier is continuous at the fresh and stale
boundaries — the value at the exact threshold comes from the zone below and
coincides with the zone-above formula evaluated at the boundary (in
particular the zone-2 and zone-3 formulas agree at `staleThreshold`) — but
at `oldThreshold` the zone-3 boundary value `(0, 85, 45)` differs from the
zone-4 constant `(0, 80, 40)`: hue agrees while saturation and lightness
jump. -/
theorem ageColor_boundaries (f s o : ℚ) (h0 : 0 < f) (hfs : f < s) (hso : s < o) :
    ageHSL f f s o = freshColor ∧
    zone2Color f f s = freshColor ∧
    ageHSL s f s o = zone2Color s f s ∧
    zone2Color s f s = zone3Color s s o ∧
    ageHSL o f s o = zone3Color o s o ∧
    zone3Color o s o = (0, 85, 45) ∧
    veryOldColor = (0, 80, 40) ∧
    (zone3Color o s o).2.1 ≠ veryOldColor.2.1 ∧
    (zone3Color o s o).2.2 ≠ veryOldColor.2.2 := by
  have hsf : s - f ≠ 0 := sub_ne_zero.mpr (ne_of_gt hfs)
  have hos : o - s ≠ 0 := sub_ne_zero.mpr (ne_of_gt hso)
  have e2 : zone2Color s f s = (40, 85, 50) := by
    unfold zone2Color
    rw [div_self hsf]
    norm_num
  have e3 : zone3Color s s o = (40, 85, 50) := by
    unfold zone3Color
    rw [sub_self, zero_div]
    norm_num
  have e3o : zone3Color o s o = (0, 85, 45) := by
    unfold zone3Color
    rw [div_self hos]
    norm_num
  refine ⟨?_, ?_, ?_, ?_, ?_, e3o, rfl, ?_, ?_⟩
  · unfold ageHSL; rw [if_pos le_rfl]
  · unfold zone2Color freshColor
    rw [sub_self, zero_div]
    norm_num
  · exact ageHSL_zone2 s f s o hfs le_rfl
  · rw [e2, e3]
  · exact ageHSL_zone3 o f s o hfs hso le_rfl
  · rw [e3o]; unfold veryOldColor; norm_num
  · rw [e3o]; unfold veryOldColor; norm_num

/-- Witness for the amended C1 at thresholds `1 < 2 < 3`. -/
theorem ageColor_boundaries_witness :
    ageHSL 1 1 2 3 = freshColor ∧
    zone2Color 1 1 2 = freshColor ∧
    ageHSL 2 1 2 3 = zone2Color 2 1 2 ∧
    zone2Color 2 1 2 = zone3Color 2 2 3 ∧
    ageHSL 3 1 2 3 = zone3Color 3 2 3 ∧
    zone3Color 3 2 3 = (0, 85, 45) ∧
    veryOldColor = (0, 80, 40) ∧
    (zone3Color 3 2 3).2.1 ≠ veryOldColor.2.1 ∧
    (zone3Color 3 2 3).2.2 ≠ veryOldColor.2.2 :=
  ageColor_boundaries 1 2 3 (by norm_num) (by norm_num) (by norm_num)

/-! ## Digit characters and JavaScript number serialization -/

/-- Decimal digit character for `d < 10`. -/
def decChar (d : ℕ) : Char := Char.ofNat (48 + d)

/-- Lowercase hexadecimal digit character for `d < 16` (as produced by
JavaScript `Number.prototype.toString(16)`). -/
def hexChar (d : ℕ) : Char :=
  if d < 10 then Char.ofNat (48 + d) else Char.ofNat (87 + d)

/-- Little-endian digit characters of `n` in base `b`, with explicit fuel so
that the recursion is structural. -/
def digitCharsAux (chr : ℕ → Char) (b : ℕ) : ℕ → ℕ → List Char
  | 0, _ => []
  | fuel + 1, n => if n = 0 then [] else chr (n % b) :: digitCharsAux chr b fuel (n / b)

/-- Decimal digit characters of a natural number, most significant first. -/
def decDigits (n : ℕ) : List Char :=
  if n = 0 then ['0'] else (digitCharsAux decChar 10 n n).reverse

/-- Lowercase hexadecimal digit characters of a natural number. -/
def hexDigits (n : ℕ) : List Char :=
  if n = 0 then ['0'] else (digitCharsAux hexChar 16 n n).reverse

/-- JavaScript `toString` of an integer-valued number. -/
def intDecChars (z : ℤ) : List Char :=
  if z < 0 then '-' :: decDigits z.natAbs else decDigits z.toNat

/-- JavaScript `toString(16)` of an integer-valued number. -/
def intHexChars (z : ℤ) : List Char :=
  if z < 0 then '-' :: hexDigits z.natAbs else hexDigits z.toNat

/-- Drops trailing `'0'` characters, keeping at least one character. -/
def stripTrailingZeros (l : List Char) : List Char :=
  let r := (l.reverse.dropWhile (· = '0')).reverse
  if r = [] then ['0'] else r

/-- Fractional digit characters of `q` (for `0 ≤ q`): the first 20 decimal
places of the fractional part, trailing zeros removed. This models the
digits JavaScript prints after the decimal point — exact whenever the
fraction terminates within 20 places, and in every case a nonempty run of
digit characters. -/
def fracDigits (q : ℚ) : List Char :=
  let ds := decDigits (⌊(q - ⌊q⌋) * 10 ^ 20⌋).toNat
  stripTrailingZeros (List.replicate (20 - ds.length) '0' ++ ds)

/-- Models JavaScript number-to-string conversion (template-literal
interpolation): integers print as plain decimal; non-integers print as the
integer part, `'.'`, and fractional digit characters. -/
def jsNumChars (q : ℚ) : List Char :=
  if q.den = 1 then intDecChars q.num
  else (if q < 0 then ['-'] else []) ++ decDigits (⌊|q|⌋).toNat ++ '.' :: fracDigits |q|

/-! ## The regular-expression parsers of `hslToHex`

Both patterns start with the literal `hsl(`; scanning (`String.match` tries
every start position) is modelled by `findIntTriple` / `findFloatTriple`.
Greedy matching without backtracking is equivalent to the regex here because
the character classes `\d` and `[\d.]` are disjoint from every literal that
can follow a group (`,`, `%`, `)`) and from `\s`. -/

/-- Maximal leading run of decimal-digit characters (greedy `\d*`). -/
def takeDigits : List Char → List Char × List Char
  | [] => ([], [])
  | c :: rest =>
    if c.isDigit then
      let (ds, r) := takeDigits rest
      (c :: ds, r)
    else ([], c :: rest)

/-- Maximal leading run of `[\d.]` characters. -/
def takeNumDot : List Char → List Char × List Char
  | [] => ([], [])
  | c :: rest =>
    if c.isDigit || c = '.' then
      let (ds, r) := takeNumDot rest
      (c :: ds, r)
    else ([], c :: rest)

/-- Greedy `\s*`. -/
def skipWs (cs : List Char) : List Char := cs.dropWhile (·.isWhitespace)

/-- A literal character of the pattern. -/
def expectChar (c : Char) : List Char → Option (List Char)
  | [] => none
  | x :: rest => if x = c then some rest else none

/-- The accumulator loop giving the numeric value of a digit run
(`parseInt` on a `\d+` capture). -/
def digitsVal (ds : List Char) : ℕ :=
  ds.foldl (fun a c => a * 10 + (c.toNat - 48)) 0

/-- background.js's pattern `hsl\((\d+),\s*(\d+)%,\s*(\d+)%\)` after the
literal `hsl(`, returning the three `parseInt`ed captures. -/
def parseIntTriple (cs : List Char) : Option (ℕ × ℕ × ℕ) :=
  match takeDigits cs with
  | ([], _) => none
  | (d1, r1) =>
    match expectChar ',' r1 with
    | none => none
    | some r2 =>
      match takeDigits (skipWs r2) with
      | ([], _) => none
      | (d2, r4) =>
        match expectChar '%' r4 with
        | none => none
        | some r5 =>
          match expectChar ',' r5 with
          | none => none
          | some r6 =>
            match takeDigits (skipWs r6) with
            | ([], _) => none
            | (d3, r8) =>
              match expectChar '%' r8 with
              | none => none
              | some r9 =>
                match expectChar ')' r9 with
                | none => none
                | some _ => some (digitsVal d1, digitsVal d2, digitsVal d3)

/-- One attempt of background.js's pattern at a position: the literal
`hsl(` followed by the groups. -/
def tryIntAt (cs : List Char) : Option (ℕ × ℕ × ℕ) :=
  match expectChar 'h' cs with
  | none => none
  | some r1 =>
    match expectChar 's' r1 with
    | none => none
    | some r2 =>
      match expectChar 'l' r2 with
      | none => none
      | some r3 =>
        match expectChar '(' r3 with
        | none => none
        | some r4 => parseIntTriple r4

/-- Scanning for background.js's pattern (`String.match` tries every start
position, leftmost match wins). -/
def findIntTriple : List Char → Option (ℕ × ℕ × ℕ)
  | [] => none
  | c :: rest =>
    match tryIntAt (c :: rest) with
    | some r => some r
    | none => findIntTriple rest

/-- part_000's pattern `hsl\(\s*([\d.]+)\s*,\s*([\d.]+)%\s*,\s*([\d.]+)%\s*\)`
after the literal `hsl(`, returning the three raw captures. -/
def parseFloatTriple (cs : List Char) : Option (List Char × List Char × List Char) :=
  match takeNumDot (skipWs cs) with
  | ([], _) => none
  | (g1, r1) =>
    match expectChar ',' (skipWs r1) with
    | none => none
    | some r2 =>
      match takeNumDot (skipWs r2) with
      | ([], _) => none
      | (g2, r4) =>
        match expectChar '%' r4 with
        | none => none
        | some r5 =>
          match expectChar ',' (skipWs r5) with
          | none => none
          | some r6 =>
            match takeNumDot (skipWs r6) with
            | ([], _) => none
            | (g3, r8) =>
              match expectChar '%' r8 with
              | none => none
              | some r9 =>
                match expectChar ')' (skipWs r9) with
                | none => none
                | some _ => some (g1, g2, g3)

/-- One attempt of part_000's pattern at a position. -/
def tryFloatAt (cs : List Char) : Option (List Char × List Char × List Char) :=
  match expectChar 'h' cs with
  | none => none
  | some r1 =>
    match expectChar 's' r1 with
    | none => none
    | some r2 =>
      match expectChar 'l' r2 with
      | none => none
      | some r3 =>
        match expectChar '(' r3 with
        | none => none
        | some r4 => parseFloatTriple r4

/-- Scanning for part_000's pattern. -/
def findFloatTriple : List Char → Option (List Char × List Char × List Char)
  | [] => none
  | c :: rest =>
    match tryFloatAt (c :: rest) with
    | some r => some r
    | none => findFloatTriple rest

/-- JavaScript `parseFloat` on the `[\d.]+` strings the capture groups
produce: leading digits, optionally a `'.'` and more digits; anything after
a second `'.'` is ignored; `none` models `NaN` (no leading number). -/
def jsParseFloat (cs : List Char) : Option ℚ :=
  match takeDigits cs with
  | (d1, '.' :: r2) =>
    let (d2, _) := takeDigits r2
    if d1 = [] ∧ d2 = [] then none
    else some ((digitsVal d1 : ℚ) + (digitsVal d2 : ℚ) / 10 ^ d2.length)
  | ([], _) => none
  | (d1, _) => some (digitsVal d1)

/-! ## JavaScript numbers with NaN, and the HSL→RGB core -/

/-- A JavaScript number as used inside `hslToHex`: a rational or `NaN`
(`parseFloat` of a capture such as `"..."`). Infinities cannot arise: the
only divisions are by the nonzero constants 360 and 100. -/
inductive JSNum where
  | nan : JSNum
  | num : ℚ → JSNum
deriving DecidableEq

/-- NaN-propagating addition. -/
def JSNum.add : JSNum → JSNum → JSNum
  | num a, num b => num (a + b)
  | _, _ => nan

/-- NaN-propagating subtraction. -/
def JSNum.sub : JSNum → JSNum → JSNum
  | num a, num b => num (a - b)
  | _, _ => nan

/-- NaN-propagating multiplication. -/
def JSNum.mul : JSNum → JSNum → JSNum
  | num a, num b => num (a * b)
  | _, _ => nan

/-- NaN-propagating division (division by zero is unreachable here, see
`JSNum`). -/
def JSNum.div : JSNum → JSNum → JSNum
  | num a, num b => if b = 0 then nan else num (a / b)
  | _, _ => nan

/-- JavaScript `<`: every comparison with NaN is false. -/
def JSNum.ltb : JSNum → JSNum → Bool
  | num a, num b => decide (a < b)
  | _, _ => false

/-- JavaScript `===` on numbers: NaN equals nothing. -/
def JSNum.eqb : JSNum → JSNum → Bool
  | num a, num b => decide (a = b)
  | _, _ => false

/-- `parseFloat` result as a JavaScript number. -/
def JSNum.ofOpt : Option ℚ → JSNum
  | none => nan
  | some q => num q

/-- The `hue2rgb` helper (identical in both variants): period-1 wraparound
followed by four piecewise-linear segments. -/
def hue2rgb (p q t : JSNum) : JSNum :=
  let t1 := if t.ltb (.num 0) then t.add (.num 1) else t
  let t2 := if (JSNum.num 1).ltb t1 then t1.sub (.num 1) else t1
  if t2.ltb (.num (1/6)) then p.add (((q.sub p).mul (.num 6)).mul t2)
  else if t2.ltb (.num (1/2)) then q
  else if t2.ltb (.num (2/3)) then p.add (((q.sub p).mul ((JSNum.num (2/3)).sub t2)).mul (.num 6))
  else p

/-- One channel of the conversion:
`Math.round(x*255).toString(16)` padded to two characters
(`Math.round(NaN).toString(16)` is `"NaN"`, length 3, not padded). -/
def toHexChannel (x : JSNum) : List Char :=
  match x.mul (.num 255) with
  | .nan => ['N', 'a', 'N']
  | .num v =>
    let hx := intHexChars (jsRound v)
    if hx.length = 1 then '0' :: hx else hx

/-- The numeric core shared by both variants of `hslToHex` (everything after
parsing): `h`, `s`, `l` on the `[0,1]` scale to a `#rrggbb` string. -/
def hslCore (h s l : JSNum) : List Char :=
  if s.eqb (.num 0) then
    '#' :: (toHexChannel l ++ toHexChannel l ++ toHexChannel l)
  else
    let q := if l.ltb (.num (1/2)) then l.mul ((JSNum.num 1).add s)
             else (l.add s).sub (l.mul s)
    let p := ((JSNum.num 2).mul l).sub q
    let r := hue2rgb p q (h.add (.num (1/3)))
    let g := hue2rgb p q h
    let b := hue2rgb p q (h.sub (.num (1/3)))
    '#' :: (toHexChannel r ++ toHexChannel g ++ toHexChannel b)

/-- `hslToHex` of `part_000`: the decimal-tolerant pattern, `parseFloat` of
the captures, then the shared core; a failed match returns the fallback
`#22c55e`. -/
def hslToHex (str : String) : String :=
  match findFloatTriple str.data with
  | none => "#22c55e"
  | some (c1, c2, c3) =>
    let hDeg := JSNum.ofOpt (jsParseFloat c1)
    let sPct := JSNum.ofOpt (jsParseFloat c2)
    let lPct := JSNum.ofOpt (jsParseFloat c3)
    (hslCore (hDeg.div (.num 360)) (sPct.div (.num 100)) (lPct.div (.num 100))).asString

/-- `hslToHex` of background.js: the integer-only pattern with `parseInt`ed
captures, then the shared core; a failed match returns the fallback
`#22c55e`. -/
def hslToHexBg (str : String) : String :=
  match findIntTriple str.data with
  | none => "#22c55e"
  | some (a, b, c) =>
    (hslCore (.num ((a : ℚ) / 360)) (.num ((b : ℚ) / 100)) (.num ((c : ℚ) / 100))).asString

/-- `getAgeColor` of `part_000`: serializes the `Math.round`ed components
through the template literal `hsl(${h}, ${s}%, ${l}%)`. -/
def getAgeColor (minutesInactive freshThreshold staleThreshold oldThreshold : ℚ) : String :=
  let c := ageHSL minutesInactive freshThreshold staleThreshold oldThreshold
  ("hsl(".data ++ intDecChars (jsRound c.1) ++ ", ".data ++ intDecChars (jsRound c.2.1)
    ++ "%, ".data ++ intDecChars (jsRound c.2.2) ++ "%)".data).asString

/-- `getAgeColor` of background.js: serializes the raw interpolated
components (no rounding) through the template literal
`hsl(${hue}, ${saturation}%, ${lightness}%)`. -/
def getAgeColorBg (minutesInactive freshThreshold staleThreshold oldThreshold : ℚ) : String :=
  let c := ageHSL minutesInactive freshThreshold staleThreshold oldThreshold
  ("hsl(".data ++ jsNumChars c.1 ++ ", ".data ++ jsNumChars c.2.1
    ++ "%, ".data ++ jsNumChars c.2.2 ++ "%)".data).asString

/-- Evaluation of the shared core at `hue 0, saturation 80%, lightness 40%`:
the two `#b81414` channels. -/
theorem toHexChannel_b8 : toHexChannel (.num (18/25)) = ['b', '8'] := by
  have hr : jsRound ((18/25 : ℚ) * 255) = 184 := by unfold jsRound; norm_num
  simp only [toHexChannel, JSNum.mul, hr]
  rfl

/-- The low channel of the deep-red conversion. -/
theorem toHexChannel_14 : toHexChannel (.num (2/25)) = ['1', '4'] := by
  have hr : jsRound ((2/25 : ℚ) * 255) = 20 := by unfold jsRound; norm_num
  simp only [toHexChannel, JSNum.mul, hr]
  rfl

/-- `hslToHex` on the zone-4 color string. -/
theorem hslToHex_veryOld : hslToHex "hsl(0, 80%, 40%)" = "#b81414" := by
  have hfind : findFloatTriple ("hsl(0, 80%, 40%)".data) =
      some ("0".data, "80".data, "40".data) := rfl
  have hp1 : jsParseFloat "0".data = some ((0:ℕ):ℚ) := rfl
  have hp2 : jsParseFloat "80".data = some ((80:ℕ):ℚ) := rfl
  have hp3 : jsParseFloat "40".data = some ((40:ℕ):ℚ) := rfl
  have hg1 : hue2rgb (.num (2/25)) (.num (18/25)) (.num (1/3)) = .num (18/25) := by
    simp only [hue2rgb, JSNum.add, JSNum.ltb, JSNum.sub, JSNum.mul]
    norm_num
  have hg2 : hue2rgb (.num (2/25)) (.num (18/25)) (.num 0) = .num (2/25) := by
    simp only [hue2rgb, JSNum.add, JSNum.ltb, JSNum.sub, JSNum.mul]
    norm_num
  have hg3 : hue2rgb (.num (2/25)) (.num (18/25)) (.num (-(1/3))) = .num (2/25) := by
    simp only [hue2rgb, JSNum.add, JSNum.ltb, JSNum.sub, JSNum.mul]
    norm_num
  simp only [hslToHex, hfind, hp1, hp2, hp3, JSNum.ofOpt, JSNum.div]
  norm_num
  simp only [hslCore, JSNum.eqb, JSNum.ltb, JSNum.add, JSNum.mul, JSNum.sub]
  norm_num [hg1, hg2, hg3, toHexChannel_b8, toHexChannel_14]
  rfl

/-- Claim C2: with thresholds `fresh=30, stale=120, old=480` and
`minutesInactive = 500`, `getAgeColor` lands in zone 4 with
`hue=0, saturation=80, lightness=40`, serialized as `hsl(0, 80%, 40%)`, and
`hslToHex` of that string is exactly the two-digit lowercase hex determined
by the HSL→RGB formula, `#b81414` (the spec's `#661a1a` is only a
hand-description of the deep-red class; the formula value is `#b81414`). -/
theorem getAgeColor_500_deepRed :
    ageHSL 500 30 120 480 = (0, 80, 40) ∧
    getAgeColor 500 30 120 480 = "hsl(0, 80%, 40%)" ∧
    hslToHex (getAgeColor 500 30 120 480) = "#b81414" := by
  have h1 : ageHSL 500 30 120 480 = veryOldColor := by
    unfold ageHSL; norm_num
  have h2 : jsRound (veryOldColor.1) = 0 := by
    unfold veryOldColor jsRound; norm_num
  have h3 : jsRound (veryOldColor.2.1) = 80 := by
    unfold veryOldColor jsRound; norm_num
  have h4 : jsRound (veryOldColor.2.2) = 40 := by
    unfold veryOldColor jsRound; norm_num
  have hs : getAgeColor 500 30 120 480 = "hsl(0, 80%, 40%)" := by
    simp only [getAgeColor, h1, h2, h3, h4]
    rfl
  refine ⟨by rw [h1]; rfl, hs, ?_⟩
  rw [hs]
  exact hslToHex_veryOld

/-- Claim C8: for every input string on which the HSL pattern fails to
match (the code's notion of an unparseable color encoding), `hslToHex`
recovers locally and returns the fixed fallback color `#22c55e`; the
conversion is a total function, so no failure propagates to the caller. -/
theorem hslToHex_fallback (s : String) (h : findFloatTriple s.data = none) :
    hslToHex s = "#22c55e" := by
  unfold hslToHex
  rw [h]

/-- Witness for C8 on the concrete malformed input `"rgb(1, 2, 3)"`. -/
theorem hslToHex_fallback_witness :
    findFloatTriple ("rgb(1, 2, 3)".data) = none ∧ hslToHex "rgb(1, 2, 3)" = "#22c55e" :=
  ⟨rfl, hslToHex_fallback "rgb(1, 2, 3)" rfl⟩

/-! ## The tab ledger -/

/-- One per tracked tab: the value stored in `tabData[tabId]`. The listener
for `onActivated` can create a record without `url`/`title` fields, hence
the options. -/
structure TabRecord where
  createdAt : ℚ
  lastActiveAt : ℚ
  url : Option String
  title : Option String
deriving DecidableEq

/-- The in-memory `tabData` object: tab id to optional record. -/
def Ledger : Type := ℕ → Option TabRecord

/-- The `chrome.tabs.onCreated` listener: overwrites the record for the tab
with `createdAt = lastActiveAt = now` and the tab's metadata. -/
def onCreated (id : ℕ) (url title : Option String) (now : ℚ) (d : Ledger) : Ledger :=
  fun i => if i = id then some ⟨now, now, url, title⟩ else d i

/-- The `chrome.tabs.onActivated` listener: refreshes `lastActiveAt` on an
existing record, or creates a minimal record. -/
def onActivated (id : ℕ) (now : ℚ) (d : Ledger) : Ledger :=
  fun i => if i = id then
    (match d id with
     | some r => some { r with lastActiveAt := now }
     | none => some ⟨now, now, none, none⟩)
  else d i

/-- The `chrome.tabs.onUpdated` listener: on `status === 'complete'`,
refreshes `url`/`title` only when a record exists. -/
def onUpdated (id : ℕ) (status : String) (url title : Option String) (d : Ledger) : Ledger :=
  if status = "complete" then
    fun i => if i = id then
      (match d id with
       | some r => some { r with url := url, title := title }
       | none => none)
    else d i
  else d

/-- The `chrome.tabs.onRemoved` listener: deletes the record unconditionally. -/
def onRemoved (id : ℕ) (d : Ledger) : Ledger :=
  fun i => if i = id then none else d i

/-- Inactivity age in minutes, as computed in `updateTabIndicator`:
`(Date.now() - data.lastActiveAt) / (1000 * 60)`; absent when the tab has no
record. -/
def ageMinutes (d : Ledger) (id : ℕ) (now : ℚ) : Option ℚ :=
  (d id).map (fun r => (now - r.lastActiveAt) / (1000 * 60))

/-- Claim C6: after `onRemoved id`, `ageMinutes id` is absent for every
`now`; and after create–remove–create the ledger's record for `id` holds
exactly the timestamps and metadata of the second creation, with no trace
of the first. -/
theorem ledger_remove_recreate (d : Ledger) (id : ℕ) (now : ℚ)
    (u1 t1 : Option String) (n1 : ℚ) (u2 t2 : Option String) (n2 : ℚ) :
    ageMinutes (onRemoved id d) id now = none ∧
    (onCreated id u2 t2 n2 (onRemoved id (onCreated id u1 t1 n1 d))) id =
      some ⟨n2, n2, u2, t2⟩ := by
  constructor
  · unfold ageMinutes onRemoved
    simp
  · unfold onCreated onRemoved
    simp

/-- Claim C9: `onUpdated` refreshes `url`/`title` only when a record exists,
is the identity on the ledger when no record exists, and in every case (any
status, any tab) leaves `createdAt` and `lastActiveAt` of every record
unchanged. -/
theorem onUpdated_metadata_only (d : Ledger) (id : ℕ) (status : String)
    (url title : Option String) :
    (∀ r, d id = some r → status = "complete" →
        (onUpdated id status url title d) id =
          some ⟨r.createdAt, r.lastActiveAt, url, title⟩) ∧
    (d id = none → onUpdated id status url title d = d) ∧
    (∀ i, ((onUpdated id status url title d) i).map TabRecord.createdAt =
        (d i).map TabRecord.createdAt ∧
      ((onUpdated id status url title d) i).map TabRecord.lastActiveAt =
        (d i).map TabRecord.lastActiveAt) := by
  refine ⟨?_, ?_, ?_⟩
  · intro r hr hs
    unfold onUpdated
    rw [if_pos hs]
    simp [hr]
  · intro hnone
    unfold onUpdated
    split
    · funext i
      by_cases hi : i = id
      · subst hi; simp [hnone]
      · simp [hi]
    · rfl
  · intro i
    unfold onUpdated
    split
    · by_cases hi : i = id
      · subst hi
        cases hd : d i <;> simp [hd]
      · simp [hi]
    · simp

/-- Witness for C9: a concrete ledger holding one record for tab 5. -/
theorem onUpdated_metadata_only_witness :
    ((fun i => if i = 5 then some (⟨100, 200, none, none⟩ : TabRecord) else none : Ledger) 5 =
        some ⟨100, 200, none, none⟩ → "complete" = "complete" →
      (onUpdated 5 "complete" (some "u") (some "t")
          (fun i => if i = 5 then some ⟨100, 200, none, none⟩ else none)) 5 =
        some ⟨100, 200, some "u", some "t"⟩) ∧
    (onUpdated 5 "complete" (some "u") (some "t")
        (fun i => if i = 5 then some ⟨100, 200, none, none⟩ else none)) 5 =
      some ⟨100, 200, some "u", some "t"⟩ := by
  have h := onUpdated_metadata_only
    (fun i => if i = 5 then some ⟨100, 200, none, none⟩ else none) 5 "complete"
    (some "u") (some "t")
  exact ⟨h.1 ⟨100, 200, none, none⟩, h.1 ⟨100, 200, none, none⟩ (by simp) rfl⟩

/-! ## Deleted-tab history -/

/-- A browser tab as the bulk operations see it (`chrome.tabs.query` items). -/
structure Tab where
  id : ℕ
  active : Bool
  pinned : Bool
  url : Option String
  title : Option String
  favIconUrl : Option String
deriving DecidableEq

/-- One entry of the `deletedTabs` history. -/
structure DeletedEntry where
  id : ℚ
  url : Option String
  title : String
  favicon : String
  deletedAt : ℚ
  lastActiveAt : ℚ
  autoDeleted : Bool
deriving DecidableEq

/-- `const MAX_DELETED_HISTORY = 50`. -/
def MAX_DELETED_HISTORY : ℕ := 50

/-- The `historyEntry` object literal built by `saveToDeletedHistory`
(`tab.title || 'Untitled'`, `tab.favIconUrl || ''` and
`tabInfo?.lastActiveAt || Date.now()` are JavaScript falsy tests, hence the
empty-string and zero cases). -/
def mkHistoryEntry (tab : Tab) (tabInfo : Option TabRecord) (now : ℚ) : DeletedEntry where
  id := now
  url := tab.url
  title := match tab.title with
           | some t => if t = "" then "Untitled" else t
           | none => "Untitled"
  favicon := match tab.favIconUrl with
             | some f => f
             | none => ""
  deletedAt := now
  lastActiveAt := match tabInfo with
                  | some r => if r.lastActiveAt = 0 then now else r.lastActiveAt
                  | none => now
  autoDeleted := false

/-- `saveToDeletedHistory`: unshift the new entry, then slice to the most
recent `MAX_DELETED_HISTORY` entries. -/
def saveToDeletedHistory (tab : Tab) (tabInfo : Option TabRecord) (now : ℚ)
    (deletedTabs : List DeletedEntry) : List DeletedEntry :=
  let h := mkHistoryEntry tab tabInfo now :: deletedTabs
  if MAX_DELETED_HISTORY < h.length then h.take MAX_DELETED_HISTORY else h

/-- One insertion never grows the history beyond 50. -/
theorem saveToDeletedHistory_length_le (tab : Tab) (tabInfo : Option TabRecord)
    (now : ℚ) (hist : List DeletedEntry) (h : hist.length ≤ 50) :
    (saveToDeletedHistory tab tabInfo now hist).length ≤ 50 := by
  simp only [saveToDeletedHistory, MAX_DELETED_HISTORY]
  split
  · next hc => simp only [List.length_take]; omega
  · next hc => simp only [List.length_cons] at hc ⊢; omega

/-- Claim C5: the deleted-tab history never exceeds 50 entries — every
sequence of `saveToDeletedHistory` insertions starting from the empty
history stays at length ≤ 50 — and inserting into a full history of 50
places the new entry newest-first while evicting exactly the oldest (last)
entry. -/
theorem deletedHistory_bounded (ops : List (Tab × Option TabRecord × ℚ))
    (tab : Tab) (tabInfo : Option TabRecord) (now : ℚ)
    (hist : List DeletedEntry) (hfull : hist.length = 50) :
    (ops.foldl (fun h o => saveToDeletedHistory o.1 o.2.1 o.2.2 h) []).length ≤ 50 ∧
    saveToDeletedHistory tab tabInfo now hist =
      mkHistoryEntry tab tabInfo now :: hist.dropLast ∧
    (saveToDeletedHistory tab tabInfo now hist).head? =
      some (mkHistoryEntry tab tabInfo now) ∧
    (saveToDeletedHistory tab tabInfo now hist).length = 50 := by
  have hseq : ∀ (l : List (Tab × Option TabRecord × ℚ)) (h0 : List DeletedEntry),
      h0.length ≤ 50 →
      (l.foldl (fun h o => saveToDeletedHistory o.1 o.2.1 o.2.2 h) h0).length ≤ 50 := by
    intro l
    induction l with
    | nil => intro h0 hh; simpa using hh
    | cons o t ih =>
      intro h0 hh
      exact ih _ (saveToDeletedHistory_length_le o.1 o.2.1 o.2.2 h0 hh)
  have hins : saveToDeletedHistory tab tabInfo now hist =
      mkHistoryEntry tab tabInfo now :: hist.dropLast := by
    simp only [saveToDeletedHistory, MAX_DELETED_HISTORY]
    rw [if_pos (by simp [hfull])]
    have hdl : hist.dropLast = hist.take 49 := by
      rw [List.dropLast_eq_take, hfull]
    rw [hdl, show (50:ℕ) = 49 + 1 from rfl, List.take_succ_cons]
  refine ⟨hseq ops [] (by simp), hins, ?_, ?_⟩
  · rw [hins]; rfl
  · rw [hins]
    simp only [List.length_cons, List.length_dropLast, hfull]

/-- Witness for C5 on a concrete full history of 50 copies of one entry. -/
theorem deletedHistory_bounded_witness :
    (List.replicate 50 (mkHistoryEntry ⟨1, false, false, some "https://a", some "A", none⟩ none 1)).length = 50 ∧
    saveToDeletedHistory ⟨2, false, false, some "https://b", some "B", none⟩ none 7
        (List.replicate 50 (mkHistoryEntry ⟨1, false, false, some "https://a", some "A", none⟩ none 1)) =
      mkHistoryEntry ⟨2, false, false, some "https://b", some "B", none⟩ none 7 ::
        (List.replicate 50 (mkHistoryEntry ⟨1, false, false, some "https://a", some "A", none⟩ none 1)).dropLast := by
  have h := deletedHistory_bounded []
    ⟨2, false, false, some "https://b", some "B", none⟩ none 7
    (List.replicate 50 (mkHistoryEntry ⟨1, false, false, some "https://a", some "A", none⟩ none 1))
    (by simp)
  exact ⟨by simp, h.2.1⟩

/-! ## Sort-by-age -/

/-- The sort key of `sortTabsByAge`:
`tabData[tab.id]?.lastActiveAt || Date.now()` — a missing record (or a zero
timestamp, `||` being a falsy test) yields "now", i.e. freshest. -/
def sortKey (d : Ledger) (now : ℚ) (t : Tab) : ℚ :=
  match d t.id with
  | some r => if r.lastActiveAt = 0 then now else r.lastActiveAt
  | none => now

/-- The array after `tabsWithAge.sort((a, b) => a.lastActiveAt - b.lastActiveAt)`:
ascending `lastActiveAt`, oldest first; `Array.prototype.sort` is stable,
modelled by a stable insertion sort on the key. -/
def sortedByAge (tabs : List Tab) (d : Ledger) (now : ℚ) : List Tab :=
  List.insertionSort (fun a b => sortKey d now a ≤ sortKey d now b) tabs

/-- `sortTabsByAge`: the emitted `chrome.tabs.move` commands — one
`(tab id, new index)` per tab, in sorted order. -/
def sortTabsByAge (tabs : List Tab) (d : Ledger) (now : ℚ) : List (ℕ × ℕ) :=
  (sortedByAge tabs d now).enum.map (fun p => (p.2.id, p.1))

/-- Filtering on an exact key commutes with `orderedInsert` for a key-based
comparator: every element the insertion passes over has a strictly smaller
key, hence a different one. -/
theorem filter_orderedInsert_key {α : Type} (key : α → ℚ) (k : ℚ) (a : α) (l : List α) :
    (List.orderedInsert (fun x y => key x ≤ key y) a l).filter
        (fun x => decide (key x = k)) =
      if key a = k then a :: l.filter (fun x => decide (key x = k))
      else l.filter (fun x => decide (key x = k)) := by
  induction l with
  | nil =>
    simp only [List.orderedInsert, List.filter]
    split <;> simp_all
  | cons b t ih =>
    simp only [List.orderedInsert]
    by_cases hab : key a ≤ key b
    · rw [if_pos hab]
      by_cases hak : key a = k
      · simp [List.filter_cons, hak]
      · simp [List.filter_cons, hak]
    · rw [if_neg hab]
      by_cases hbk : key b = k
      · have hak : ¬ key a = k := by
          intro h
          exact hab (le_of_eq (h.trans hbk.symm))
        simp [List.filter_cons, hbk, hak, ih]
      · simp [List.filter_cons, hbk, ih]

/-- A stable sort leaves each equal-key fiber in input order. -/
theorem filter_insertionSort_key {α : Type} (key : α → ℚ) (k : ℚ) (l : List α) :
    (List.insertionSort (fun x y => key x ≤ key y) l).filter
        (fun x => decide (key x = k)) =
      l.filter (fun x => decide (key x = k)) := by
  induction l with
  | nil => rfl
  | cons a t ih =>
    simp only [List.insertionSort]
    rw [filter_orderedInsert_key]
    by_cases hak : key a = k
    · rw [if_pos hak, ih, List.filter_cons, if_pos (by simp [hak])]
    · rw [if_neg hak, ih, List.filter_cons, if_neg (by simp [hak])]

/-- Claim C7: `sortTabsByAge` stable-sorts the tabs of the current window by
ascending `lastActiveAt` (oldest first) — the result is sorted by the key,
is a permutation of the input, and preserves the input order inside every
equal-key fiber — a tab with no ledger record gets the sentinel key `now`
(freshest); the emitted commands are one move per tab with indices
`0, 1, …` in sorted order; and on three tabs with `lastActiveAt` values
`T-30`, `T-10`, `T-50` the produced order is `T-50, T-30, T-10`. -/
theorem sortTabsByAge_spec (tabs : List Tab) (d : Ledger) (now T : ℚ) (hT : 50 < T) :
    List.Sorted (fun a b => sortKey d now a ≤ sortKey d now b) (sortedByAge tabs d now) ∧
    (sortedByAge tabs d now).Perm tabs ∧
    (∀ k : ℚ, (sortedByAge tabs d now).filter (fun t => decide (sortKey d now t = k)) =
        tabs.filter (fun t => decide (sortKey d now t = k))) ∧
    (∀ t : Tab, d t.id = none → sortKey d now t = now) ∧
    (sortTabsByAge tabs d now).map Prod.snd = List.range tabs.length ∧
    (sortTabsByAge tabs d now).map Prod.fst = (sortedByAge tabs d now).map Tab.id ∧
    sortTabsByAge [⟨1, false, false, none, none, none⟩, ⟨2, false, false, none, none, none⟩,
        ⟨3, false, false, none, none, none⟩]
      (fun i => if i = 1 then some ⟨0, T - 30, none, none⟩
                else if i = 2 then some ⟨0, T - 10, none, none⟩
                else if i = 3 then some ⟨0, T - 50, none, none⟩ else none) now =
      [(3, 0), (1, 1), (2, 2)] := by
  haveI : IsTotal Tab (fun a b => sortKey d now a ≤ sortKey d now b) :=
    ⟨fun a b => le_total _ _⟩
  haveI : IsTrans Tab (fun a b => sortKey d now a ≤ sortKey d now b) :=
    ⟨fun a b c hab hbc => le_trans hab hbc⟩
  have hperm : (sortedByAge tabs d now).Perm tabs := List.perm_insertionSort _ tabs
  refine ⟨List.sorted_insertionSort _ tabs, hperm, ?_, ?_, ?_, ?_, ?_⟩
  · intro k
    exact filter_insertionSort_key (sortKey d now) k tabs
  · intro t ht
    simp only [sortKey, ht]
  · unfold sortTabsByAge
    rw [List.map_map]
    have : (Prod.snd ∘ fun p : ℕ × Tab => (p.2.id, p.1)) = Prod.fst := rfl
    rw [this, List.enum_map_fst, hperm.length_eq]
  · unfold sortTabsByAge
    rw [List.map_map]
    have : (Prod.fst ∘ fun p : ℕ × Tab => (p.2.id, p.1)) = (Tab.id ∘ Prod.snd) := rfl
    rw [this, ← List.map_map, List.enum_map_snd]
  · have k1 : sortKey (fun i => if i = 1 then some ⟨0, T - 30, none, none⟩
                  else if i = 2 then some ⟨0, T - 10, none, none⟩
                  else if i = 3 then some ⟨0, T - 50, none, none⟩ else none) now
        ⟨1, false, false, none, none, none⟩ = T - 30 := by
      simp only [sortKey]
      norm_num
      intro h
      linarith
    have k2 : sortKey (fun i => if i = 1 then some ⟨0, T - 30, none, none⟩
                  else if i = 2 then some ⟨0, T - 10, none, none⟩
                  else if i = 3 then some ⟨0, T - 50, none, none⟩ else none) now
        ⟨2, false, false, none, none, none⟩ = T - 10 := by
      simp only [sortKey]
      norm_num
      intro h
      linarith
    have k3 : sortKey (fun i => if i = 1 then some ⟨0, T - 30, none, none⟩
                  else if i = 2 then some ⟨0, T - 10, none, none⟩
                  else if i = 3 then some ⟨0, T - 50, none, none⟩ else none) now
        ⟨3, false, false, none, none, none⟩ = T - 50 := by
      simp only [sortKey]
      norm_num
      intro h
      linarith
    have hBC : ¬ (T - 10 ≤ T - 50) := by linarith
    have hAC : ¬ (T - 30 ≤ T - 50) := by linarith
    have hAB : (T - 30 ≤ T - 10) := by linarith
    simp only [sortTabsByAge, sortedByAge, List.insertionSort, List.orderedInsert,
      k1, k2, k3, hBC, hAC, hAB, if_true, if_false, if_neg, if_pos, List.enum,
      List.enumFrom, List.map]

/-- Witness for C7: the concrete three-tab scenario at `T = 100`. -/
theorem sortTabsByAge_spec_witness :
    sortTabsByAge [⟨1, false, false, none, none, none⟩, ⟨2, false, false, none, none, none⟩,
        ⟨3, false, false, none, none, none⟩]
      (fun i => if i = 1 then some ⟨0, (100:ℚ) - 30, none, none⟩
                else if i = 2 then some ⟨0, (100:ℚ) - 10, none, none⟩
                else if i = 3 then some ⟨0, (100:ℚ) - 50, none, none⟩ else none) 0 =
      [(3, 0), (1, 1), (2, 2)] :=
  (sortTabsByAge_spec [] (fun _ => none) 0 100 (by norm_num)).2.2.2.2.2.2

/-! ## Close-old and auto-delete -/

/-- The filter of `closeOldTabs` (textually identical in part_000 and
background.js): a tracked tab with
`(now - data.lastActiveAt) > oldThreshold*60*1000` that is not active. -/
def closeOldFilter (d : Ledger) (oldThreshold now : ℚ) (t : Tab) : Bool :=
  match d t.id with
  | none => false
  | some r => decide ((now - r.lastActiveAt) > oldThreshold * 60 * 1000) && !t.active

/-- `const tabsToClose = tabs.filter(...)` in `closeOldTabs`. -/
def closeOldSelect (tabs : List Tab) (d : Ledger) (oldThreshold now : ℚ) : List Tab :=
  tabs.filter (closeOldFilter d oldThreshold now)

/-- The archive loop of part_000's `closeOldTabs`: one
`saveToDeletedHistory` per selected tab, in order. -/
def archiveAll (d : Ledger) (now : ℚ) (sel : List Tab) (hist : List DeletedEntry) :
    List DeletedEntry :=
  sel.foldl (fun h t => saveToDeletedHistory t (d t.id) now h) hist

/-- `closeOldTabs` of part_000: archive every selected tab, then remove them
all; result is the updated history and the removed tab ids. -/
def closeOldTabs (tabs : List Tab) (d : Ledger) (oldThreshold now : ℚ)
    (hist : List DeletedEntry) : List DeletedEntry × List ℕ :=
  let tabsToClose := closeOldSelect tabs d oldThreshold now
  (archiveAll d now tabsToClose hist, tabsToClose.map Tab.id)

/-- `closeOldTabs` of background.js: the same selection, but this worker
keeps no deleted-tab history — removal without archiving (the history
component of the state is untouched). -/
def closeOldTabsBg (tabs : List Tab) (d : Ledger) (oldThreshold now : ℚ)
    (hist : List DeletedEntry) : List DeletedEntry × List ℕ :=
  (hist, (tabs.filter (closeOldFilter d oldThreshold now)).map Tab.id)

/-- The special-URL skip of `autoDeleteOldTabs`: `!tab.url ||
tab.url.startsWith('chrome://') || … || tab.url === 'about:blank'`. -/
def badUrl : Option String → Bool
  | none => true
  | some s => s == "" || s.startsWith "chrome://" || s.startsWith "chrome-extension://"
      || s.startsWith "brave://" || s.startsWith "edge://" || s == "about:blank"

/-- The per-tab condition of `autoDeleteOldTabs`: tracked, not active, not
pinned, not a special URL, inactive beyond `autoDeleteThreshold*60*1000`. -/
def autoDeleteFilter (d : Ledger) (autoThreshold now : ℚ) (t : Tab) : Bool :=
  match d t.id with
  | none => false
  | some r => !t.active && !t.pinned && !(badUrl t.url) &&
      decide ((now - r.lastActiveAt) > autoThreshold * 60 * 1000)

/-- `historyEntry.autoDeleted = true` right after `saveToDeletedHistory`
placed the entry at the head of the history. -/
def markHeadAutoDeleted : List DeletedEntry → List DeletedEntry
  | [] => []
  | e :: t => { e with autoDeleted := true } :: t

/-- The archive loop of `autoDeleteOldTabs`: save, then flag auto-deleted. -/
def autoArchiveAll (d : Ledger) (now : ℚ) (sel : List Tab) (hist : List DeletedEntry) :
    List DeletedEntry :=
  sel.foldl (fun h t => markHeadAutoDeleted (saveToDeletedHistory t (d t.id) now h)) hist

/-- `autoDeleteOldTabs`: per selected tab, archive (flagged auto-deleted)
and remove. -/
def autoDeleteOldTabs (tabs : List Tab) (d : Ledger) (autoThreshold now : ℚ)
    (hist : List DeletedEntry) : List DeletedEntry × List ℕ :=
  let sel := tabs.filter (autoDeleteFilter d autoThreshold now)
  (autoArchiveAll d now sel hist, sel.map Tab.id)

/-- The claim's close-old selection, written through `ageMinutes` as the
spec phrases it: `ageMinutes > oldThreshold` (absent means skip), excluding
the active tab. -/
def closeOldSpec (d : Ledger) (oldThreshold now : ℚ) (t : Tab) : Bool :=
  (match ageMinutes d t.id now with
   | some a => decide (a > oldThreshold)
   | none => false) && !t.active

/-- The claim's richer selection: additionally excludes pinned tabs and
internal browser pages. -/
def autoDeleteSpec (d : Ledger) (thr now : ℚ) (t : Tab) : Bool :=
  (match ageMinutes d t.id now with
   | some a => decide (a > thr)
   | none => false) && !t.active && !t.pinned && !(badUrl t.url)

/-- Milliseconds against `thr*60*1000` is minutes against `thr`. -/
theorem ms_iff_minutes (a thr : ℚ) :
    (a > thr * 60 * 1000) ↔ (a / (1000 * 60) > thr) := by
  rw [gt_iff_lt, gt_iff_lt, lt_div_iff (by norm_num)]
  constructor <;> intro h <;> linarith

/-- The code's close-old filter is the spec's selection predicate. -/
theorem closeOldFilter_eq_spec (d : Ledger) (thr now : ℚ) (t : Tab) :
    closeOldFilter d thr now t = closeOldSpec d thr now t := by
  unfold closeOldFilter closeOldSpec ageMinutes
  cases hd : d t.id with
  | none => simp
  | some r =>
    simp only [Option.map_some']
    congr 1
    rw [decide_eq_decide]
    exact ms_iff_minutes (now - r.lastActiveAt) thr

/-- The code's auto-delete filter is the spec's richer selection predicate. -/
theorem autoDeleteFilter_eq_spec (d : Ledger) (thr now : ℚ) (t : Tab) :
    autoDeleteFilter d thr now t = autoDeleteSpec d thr now t := by
  unfold autoDeleteFilter autoDeleteSpec ageMinutes
  cases hd : d t.id with
  | none => simp
  | some r =>
    simp only [Option.map_some']
    have hms : decide ((now - r.lastActiveAt) > thr * 60 * 1000) =
        decide ((now - r.lastActiveAt) / (1000 * 60) > thr) := by
      rw [decide_eq_decide]
      exact ms_iff_minutes (now - r.lastActiveAt) thr
    rw [hms]
    cases t.active <;> cases t.pinned <;> cases hb : badUrl t.url <;>
      cases hc : decide ((now - r.lastActiveAt) / (1000 * 60) > thr) <;> simp [hb, hc]

/-- `saveToDeletedHistory` always places the new entry at the head. -/
theorem saveToDeletedHistory_cons (tab : Tab) (info : Option TabRecord) (now : ℚ)
    (hist : List DeletedEntry) :
    ∃ rest, saveToDeletedHistory tab info now hist = mkHistoryEntry tab info now :: rest := by
  simp only [saveToDeletedHistory, MAX_DELETED_HISTORY]
  split
  · exact ⟨_, by rw [show (50:ℕ) = 49 + 1 from rfl, List.take_succ_cons]⟩
  · exact ⟨hist, rfl⟩

/-- Claim C4 (amended): part_000's `closeOldTabs` selects exactly the
tracked, non-active tabs with `ageMinutes > oldThreshold` — pinned tabs and
internal pages are NOT excluded there — and passes every selected tab to
`saveToDeletedHistory` (its entry heads the intermediate history) before the
removal list is produced; the pinned/internal exclusions belong to
`autoDeleteOldTabs`, which is driven by `autoDeleteThreshold` and flags its
entries auto-deleted; background.js's `closeOldTabs` selects identically but
removes without any archiving (it has no deleted-tab history). -/
theorem closeOld_variants (tabs : List Tab) (d : Ledger) (oldThr autoThr now : ℚ)
    (hist : List DeletedEntry) :
    (closeOldTabs tabs d oldThr now hist).2 =
        (tabs.filter (closeOldSpec d oldThr now)).map Tab.id ∧
    (∀ t ∈ closeOldSelect tabs d oldThr now,
        ∃ l2 hmid, (closeOldTabs tabs d oldThr now hist).1 = archiveAll d now l2 hmid ∧
          hmid.head? = some (mkHistoryEntry t (d t.id) now)) ∧
    (autoDeleteOldTabs tabs d autoThr now hist).2 =
        (tabs.filter (autoDeleteSpec d autoThr now)).map Tab.id ∧
    (∀ t ∈ tabs.filter (autoDeleteFilter d autoThr now),
        ∃ l2 hmid,
          (autoDeleteOldTabs tabs d autoThr now hist).1 = autoArchiveAll d now l2 hmid ∧
          hmid.head? = some { mkHistoryEntry t (d t.id) now with autoDeleted := true }) ∧
    (closeOldTabsBg tabs d oldThr now hist).2 =
        (tabs.filter (closeOldSpec d oldThr now)).map Tab.id ∧
    (closeOldTabsBg tabs d oldThr now hist).1 = hist := by
  have hfe : closeOldFilter d oldThr now = closeOldSpec d oldThr now :=
    funext (closeOldFilter_eq_spec d oldThr now)
  have hae : autoDeleteFilter d autoThr now = autoDeleteSpec d autoThr now :=
    funext (autoDeleteFilter_eq_spec d autoThr now)
  refine ⟨?_, ?_, ?_, ?_, ?_, rfl⟩
  · show (closeOldSelect tabs d oldThr now).map Tab.id = _
    unfold closeOldSelect
    rw [hfe]
  · intro t ht
    obtain ⟨l1, l2, hsel⟩ := List.append_of_mem ht
    refine ⟨l2, saveToDeletedHistory t (d t.id) now (archiveAll d now l1 hist), ?_, ?_⟩
    · show archiveAll d now (closeOldSelect tabs d oldThr now) hist = _
      rw [hsel]
      unfold archiveAll
      rw [List.foldl_append, List.foldl_cons]
    · obtain ⟨rest, hr⟩ := saveToDeletedHistory_cons t (d t.id) now (archiveAll d now l1 hist)
      rw [hr]
      rfl
  · show (tabs.filter (autoDeleteFilter d autoThr now)).map Tab.id = _
    rw [hae]
  · intro t ht
    obtain ⟨l1, l2, hsel⟩ := List.append_of_mem ht
    refine ⟨l2,
      markHeadAutoDeleted (saveToDeletedHistory t (d t.id) now (autoArchiveAll d now l1 hist)),
      ?_, ?_⟩
    · show autoArchiveAll d now (tabs.filter (autoDeleteFilter d autoThr now)) hist = _
      rw [hsel]
      unfold autoArchiveAll
      rw [List.foldl_append, List.foldl_cons]
    · obtain ⟨rest, hr⟩ :=
        saveToDeletedHistory_cons t (d t.id) now (autoArchiveAll d now l1 hist)
      rw [hr]
      rfl
  · show (tabs.filter (closeOldFilter d oldThr now)).map Tab.id = _
    rw [hfe]

/-- Claim C4, counterexample: (i) in the background.js variant a selected
tab (id 1, tracked, old, not active) is removed while the deleted-tab
history stays empty — no `saveToDeletedHistory` archiving exists in that
variant; (ii) in the richer part_000 variant, `closeOldTabs` does select a
pinned tab showing an internal `chrome://` page (id 2), contradicting the
claimed exclusions. -/
theorem closeOld_claim_fails :
    (closeOldTabsBg [⟨1, false, false, some "https://example.com", some "Old", none⟩]
        (fun i => if i = 1 then some ⟨0, 5, none, none⟩ else none) 480 100000000 []).2 = [1] ∧
    (closeOldTabsBg [⟨1, false, false, some "https://example.com", some "Old", none⟩]
        (fun i => if i = 1 then some ⟨0, 5, none, none⟩ else none) 480 100000000 []).1 = [] ∧
    (closeOldTabs [⟨2, false, true, some "chrome://settings", some "S", none⟩]
        (fun i => if i = 2 then some ⟨0, 5, none, none⟩ else none) 480 100000000 []).2 = [2] := by
  have h1 : closeOldFilter (fun i => if i = 1 then some ⟨0, 5, none, none⟩ else none)
      480 100000000 ⟨1, false, false, some "https://example.com", some "Old", none⟩ = true := by
    simp only [closeOldFilter]
    norm_num
  have h2 : closeOldFilter (fun i => if i = 2 then some ⟨0, 5, none, none⟩ else none)
      480 100000000 ⟨2, false, true, some "chrome://settings", some "S", none⟩ = true := by
    simp only [closeOldFilter]
    norm_num
  refine ⟨?_, rfl, ?_⟩
  · simp [closeOldTabsBg, List.filter_cons, h1]
  · simp [closeOldTabs, closeOldSelect, List.filter_cons, h2, archiveAll]

/-- Witness for the amended C4 at a concrete single-tab scenario. -/
theorem closeOld_variants_witness :
    (closeOldTabs [⟨1, false, false, some "https://example.com", some "Old", none⟩]
        (fun i => if i = 1 then some ⟨0, 5, none, none⟩ else none) 480 100000000 []).2 =
      (([⟨1, false, false, some "https://example.com", some "Old", none⟩] : List Tab).filter
        (closeOldSpec (fun i => if i = 1 then some ⟨0, 5, none, none⟩ else none)
          480 100000000)).map Tab.id ∧
    (∃ l2 hmid,
      (closeOldTabs [⟨1, false, false, some "https://example.com", some "Old", none⟩]
          (fun i => if i = 1 then some ⟨0, 5, none, none⟩ else none) 480 100000000 []).1 =
        archiveAll (fun i => if i = 1 then some ⟨0, 5, none, none⟩ else none) 100000000 l2 hmid ∧
      hmid.head? = some (mkHistoryEntry
        ⟨1, false, false, some "https://example.com", some "Old", none⟩
        ((fun i => if i = 1 then some (⟨0, 5, none, none⟩ : TabRecord) else none)
          (Tab.id ⟨1, false, false, some "https://example.com", some "Old", none⟩))
        100000000)) := by
  have h := closeOld_variants [⟨1, false, false, some "https://example.com", some "Old", none⟩]
    (fun i => if i = 1 then some ⟨0, 5, none, none⟩ else none) 480 60 100000000 []
  have hmem : (⟨1, false, false, some "https://example.com", some "Old", none⟩ : Tab) ∈
      closeOldSelect [⟨1, false, false, some "https://example.com", some "Old", none⟩]
        (fun i => if i = 1 then some ⟨0, 5, none, none⟩ else none) 480 100000000 := by
    have h1 : closeOldFilter (fun i => if i = 1 then some ⟨0, 5, none, none⟩ else none)
        480 100000000 ⟨1, false, false, some "https://example.com", some "Old", none⟩ = true := by
      simp only [closeOldFilter]
      norm_num
    simp [closeOldSelect, List.filter_cons, h1]
  exact ⟨h.1, h.2.1 _ hmem⟩

/-! ## The background.js serialization/parsing mismatch -/

/-- A character produced by the decimal serializer. -/
def IsDigitChar (c : Char) : Prop := ∃ d, d < 10 ∧ c = decChar d

/-- Serialized digit characters satisfy the parser's `\d` class. -/
theorem IsDigitChar.isDigit {c : Char} (h : IsDigitChar c) : c.isDigit = true := by
  obtain ⟨d, hd, rfl⟩ := h
  interval_cases d <;> decide

/-- Serialized digit characters are not whitespace. -/
theorem IsDigitChar.not_ws {c : Char} (h : IsDigitChar c) : c.isWhitespace = false := by
  obtain ⟨d, hd, rfl⟩ := h
  interval_cases d <;> decide

/-- Serialized digit characters are not `'h'`. -/
theorem IsDigitChar.ne_h {c : Char} (h : IsDigitChar c) : c ≠ 'h' := by
  obtain ⟨d, hd, rfl⟩ := h
  interval_cases d <;> decide

/-- Every character emitted by the little-endian digit writer is a decimal
digit character. -/
theorem digitCharsAux_digits (fuel n : ℕ) :
    ∀ c ∈ digitCharsAux decChar 10 fuel n, IsDigitChar c := by
  induction fuel generalizing n with
  | zero => intro c hc; simp [digitCharsAux] at hc
  | succ k ih =>
    intro c hc
    simp only [digitCharsAux] at hc
    split at hc
    · simp at hc
    · rcases List.mem_cons.mp hc with h | h
      · exact ⟨n % 10, Nat.mod_lt _ (by norm_num), h⟩
      · exact ih _ c h

/-- `decDigits` emits only digit characters. -/
theorem decDigits_digits (n : ℕ) : ∀ c ∈ decDigits n, IsDigitChar c := by
  intro c hc
  unfold decDigits at hc
  split at hc
  · simp at hc
    exact hc ▸ ⟨0, by norm_num, rfl⟩
  · rw [List.mem_reverse] at hc
    exact digitCharsAux_digits n n c hc

/-- `decDigits` is never empty. -/
theorem decDigits_ne_nil (n : ℕ) : decDigits n ≠ [] := by
  unfold decDigits
  split
  · simp
  · rw [ne_eq, List.reverse_eq_nil_iff]
    next hn =>
    cases n with
    | zero => exact absurd rfl hn
    | succ k =>
      simp only [digitCharsAux, hn]
      simp

/-- `stripTrailingZeros` emits only characters of its input or `'0'`. -/
theorem stripTrailingZeros_digits (l : List Char) (hl : ∀ c ∈ l, IsDigitChar c) :
    ∀ c ∈ stripTrailingZeros l, IsDigitChar c := by
  intro c hc
  simp only [stripTrailingZeros] at hc
  split at hc
  · simp at hc
    exact hc ▸ ⟨0, by norm_num, rfl⟩
  · rw [List.mem_reverse] at hc
    exact hl c (by
      have := (List.dropWhile_sublist (fun x => decide (x = '0'))).subset hc
      exact List.mem_reverse.mp this)

/-- `fracDigits` emits only digit characters. -/
theorem fracDigits_digits (q : ℚ) : ∀ c ∈ fracDigits q, IsDigitChar c := by
  unfold fracDigits
  apply stripTrailingZeros_digits
  intro c hc
  rcases List.mem_append.mp hc with h | h
  · rw [List.eq_of_mem_replicate h]
    exact ⟨0, by norm_num, rfl⟩
  · exact decDigits_digits _ c h

/-- An all-digit, nonempty serialized component (an integer-valued number). -/
def DigitStr (l : List Char) : Prop := l ≠ [] ∧ ∀ c ∈ l, IsDigitChar c

/-- A serialized component containing a decimal point: nonempty digits,
`'.'`, digits. -/
def DottedStr (l : List Char) : Prop :=
  ∃ d1 d2, l = d1 ++ '.' :: d2 ∧ d1 ≠ [] ∧ (∀ c ∈ d1, IsDigitChar c) ∧
    (∀ c ∈ d2, IsDigitChar c)

/-- A positive integer-valued number serializes to a nonempty digit run. -/
theorem jsNumChars_digitStr (q : ℚ) (hq : 0 < q) (hden : q.den = 1) :
    DigitStr (jsNumChars q) := by
  unfold jsNumChars
  rw [if_pos hden]
  unfold intDecChars
  rw [if_neg (by exact not_lt.mpr (le_of_lt (Rat.num_pos.mpr hq)))]
  exact ⟨decDigits_ne_nil _, decDigits_digits _⟩

/-- A positive non-integer number serializes to digits, `'.'`, digits. -/
theorem jsNumChars_dottedStr (q : ℚ) (hq : 0 < q) (hden : q.den ≠ 1) :
    DottedStr (jsNumChars q) := by
  unfold jsNumChars
  rw [if_neg hden, if_neg (not_lt.mpr hq.le)]
  refine ⟨decDigits (⌊|q|⌋).toNat, fracDigits |q|, by simp, decDigits_ne_nil _,
    decDigits_digits _, fracDigits_digits _⟩

/-- The greedy `\d+` consumes exactly an all-digit block when a non-digit
follows. -/
theorem takeDigits_append (ds : List Char) (c : Char) (rest : List Char)
    (hds : ∀ x ∈ ds, x.isDigit = true) (hc : c.isDigit = false) :
    takeDigits (ds ++ c :: rest) = (ds, c :: rest) := by
  induction ds with
  | nil =>
    simp only [List.nil_append, takeDigits, hc]
    rfl
  | cons x xs ih =>
    have hx : x.isDigit = true := hds x (by simp)
    simp only [List.cons_append, takeDigits, hx, if_true, List.append_eq]
    rw [ih (fun y hy => hds y (by simp [hy]))]

/-- `\s*` stops at a digit character. -/
theorem skipWs_cons_digit (c : Char) (rest : List Char) (hc : c.isWhitespace = false) :
    skipWs (c :: rest) = c :: rest := by
  unfold skipWs
  rw [List.dropWhile_cons_of_neg (by simp [hc])]

/-- `\s*` consumes a space. -/
theorem skipWs_cons_space (rest : List Char) : skipWs (' ' :: rest) = skipWs rest := by
  unfold skipWs
  rw [List.dropWhile_cons_of_pos (by decide)]

/-- The literal matcher on a match. -/
theorem expectChar_pos (c : Char) (rest : List Char) :
    expectChar c (c :: rest) = some rest := by
  simp [expectChar]

/-- The literal matcher on a mismatch. -/
theorem expectChar_neg (c x : Char) (rest : List Char) (h : x ≠ c) :
    expectChar c (x :: rest) = none := by
  simp [expectChar, h]

/-- The dot is not a serialized digit character. -/
theorem not_isDigitChar_dot : ¬ IsDigitChar '.' := by
  rintro ⟨d, hd, h⟩
  interval_cases d <;> exact absurd h (by decide)

/-- A component cannot be both all-digits and dotted. -/
theorem DigitStr.not_dotted {l : List Char} (h : DigitStr l) : ¬ DottedStr l := by
  rintro ⟨d1, d2, rfl, -, -, -⟩
  exact not_isDigitChar_dot (h.2 '.' (by simp))

/-- No serialized component contains `'h'`. -/
theorem component_no_h {l : List Char} (h : DigitStr l ∨ DottedStr l) :
    ∀ c ∈ l, c ≠ 'h' := by
  rcases h with h | h
  · exact fun c hc => (h.2 c hc).ne_h
  · obtain ⟨d1, d2, rfl, -, hd1, hd2⟩ := h
    intro c hc
    rcases List.mem_append.mp hc with h' | h'
    · exact (hd1 c h').ne_h
    · rcases List.mem_cons.mp h' with h'' | h''
      · exact h'' ▸ (by decide)
      · exact (hd2 c h'').ne_h

/-- A dotted first group makes the integer-only pattern fail: the greedy
`\d+` stops at the `'.'`, where the pattern demands `','`. -/
theorem parseIntTriple_dotted_first (c1 : List Char) (h : DottedStr c1) (R : List Char) :
    parseIntTriple (c1 ++ R) = none := by
  obtain ⟨d1, d2, hc1, hne, hd1, hd2⟩ := h
  obtain ⟨x, xs, rfl⟩ := List.exists_cons_of_ne_nil hne
  subst hc1
  have htake : takeDigits ((x :: xs) ++ '.' :: (d2 ++ R)) = (x :: xs, '.' :: (d2 ++ R)) :=
    takeDigits_append _ _ _ (fun y hy => (hd1 y hy).isDigit) (by decide)
  have harr : ((x :: xs) ++ '.' :: d2) ++ R = (x :: xs) ++ '.' :: (d2 ++ R) := by
    simp [List.append_assoc]
  rw [harr]
  unfold parseIntTriple
  rw [htake]
  simp [expectChar]

/-- An integer first group but dotted second group: the pattern fails at the
`'%'` expected after the second `\d+`. -/
theorem parseIntTriple_dotted_second (c1 c2 : List Char)
    (h1 : DigitStr c1) (h2 : DottedStr c2) (R : List Char) :
    parseIntTriple (c1 ++ ',' :: ' ' :: (c2 ++ R)) = none := by
  obtain ⟨hne1, hd1⟩ := h1
  obtain ⟨x, xs, rfl⟩ := List.exists_cons_of_ne_nil hne1
  obtain ⟨e1, e2, hc2, hne2, he1, he2⟩ := h2
  obtain ⟨y, ys, rfl⟩ := List.exists_cons_of_ne_nil hne2
  subst hc2
  have htake1 : takeDigits ((x :: xs) ++ ',' :: ' ' :: (((y :: ys) ++ '.' :: e2) ++ R)) =
      (x :: xs, ',' :: ' ' :: (((y :: ys) ++ '.' :: e2) ++ R)) :=
    takeDigits_append _ _ _ (fun c hc => (hd1 c hc).isDigit) (by decide)
  have hskip : skipWs (' ' :: (((y :: ys) ++ '.' :: e2) ++ R)) =
      ((y :: ys) ++ '.' :: e2) ++ R := by
    rw [skipWs_cons_space]
    exact skipWs_cons_digit _ _ ((he1 y (by simp)).not_ws)
  have htake2 : takeDigits ((y :: ys) ++ '.' :: (e2 ++ R)) = (y :: ys, '.' :: (e2 ++ R)) :=
    takeDigits_append _ _ _ (fun c hc => (he1 c hc).isDigit) (by decide)
  unfold parseIntTriple
  rw [htake1]
  simp only [expectChar_pos]
  rw [hskip]
  have harr : ((y :: ys) ++ '.' :: e2) ++ R = (y :: ys) ++ '.' :: (e2 ++ R) := by
    simp [List.append_assoc]
  rw [harr, htake2]
  simp [expectChar]

/-- Integer first and second groups but a dotted third group: the pattern
fails at the final `'%'`. -/
theorem parseIntTriple_dotted_third (c1 c2 c3 : List Char)
    (h1 : DigitStr c1) (h2 : DigitStr c2) (h3 : DottedStr c3) (R : List Char) :
    parseIntTriple (c1 ++ ',' :: ' ' :: (c2 ++ '%' :: ',' :: ' ' :: (c3 ++ R))) = none := by
  obtain ⟨hne1, hd1⟩ := h1
  obtain ⟨x, xs, rfl⟩ := List.exists_cons_of_ne_nil hne1
  obtain ⟨hne2, hd2⟩ := h2
  obtain ⟨y, ys, rfl⟩ := List.exists_cons_of_ne_nil hne2
  obtain ⟨e1, e2, hc3, hne3, he1, he2⟩ := h3
  obtain ⟨z, zs, rfl⟩ := List.exists_cons_of_ne_nil hne3
  subst hc3
  have htake1 : takeDigits ((x :: xs) ++ ',' :: ' ' ::
        ((y :: ys) ++ '%' :: ',' :: ' ' :: (((z :: zs) ++ '.' :: e2) ++ R))) =
      (x :: xs, ',' :: ' ' ::
        ((y :: ys) ++ '%' :: ',' :: ' ' :: (((z :: zs) ++ '.' :: e2) ++ R))) :=
    takeDigits_append _ _ _ (fun c hc => (hd1 c hc).isDigit) (by decide)
  have hskip1 : skipWs (' ' ::
        ((y :: ys) ++ '%' :: ',' :: ' ' :: (((z :: zs) ++ '.' :: e2) ++ R))) =
      (y :: ys) ++ '%' :: ',' :: ' ' :: (((z :: zs) ++ '.' :: e2) ++ R) := by
    rw [skipWs_cons_space]
    exact skipWs_cons_digit _ _ ((hd2 y (by simp)).not_ws)
  have htake2 : takeDigits ((y :: ys) ++ '%' :: ',' :: ' ' :: (((z :: zs) ++ '.' :: e2) ++ R)) =
      (y :: ys, '%' :: ',' :: ' ' :: (((z :: zs) ++ '.' :: e2) ++ R)) :=
    takeDigits_append _ _ _ (fun c hc => (hd2 c hc).isDigit) (by decide)
  have hskip2 : skipWs (' ' :: (((z :: zs) ++ '.' :: e2) ++ R)) =
      ((z :: zs) ++ '.' :: e2) ++ R := by
    rw [skipWs_cons_space]
    exact skipWs_cons_digit _ _ ((he1 z (by simp)).not_ws)
  have htake3 : takeDigits ((z :: zs) ++ '.' :: (e2 ++ R)) = (z :: zs, '.' :: (e2 ++ R)) :=
    takeDigits_append _ _ _ (fun c hc => (he1 c hc).isDigit) (by decide)
  unfold parseIntTriple
  rw [htake1]
  simp only [expectChar_pos]
  rw [hskip1, htake2]
  simp only [expectChar_pos]
  rw [hskip2]
  have harr : ((z :: zs) ++ '.' :: e2) ++ R = (z :: zs) ++ '.' :: (e2 ++ R) := by
    simp [List.append_assoc]
  rw [harr, htake3]
  simp [expectChar]

/-- The integer-only pattern fails on the serialized triple whenever any
component carries a decimal point. -/
theorem parseIntTriple_mismatch (c1 c2 c3 : List Char)
    (h1 : DigitStr c1 ∨ DottedStr c1) (h2 : DigitStr c2 ∨ DottedStr c2)
    (h3 : DigitStr c3 ∨ DottedStr c3)
    (hdot : DottedStr c1 ∨ DottedStr c2 ∨ DottedStr c3) :
    parseIntTriple (c1 ++ ',' :: ' ' :: (c2 ++ '%' :: ',' :: ' ' :: (c3 ++ ['%', ')']))) =
      none := by
  rcases h1 with hc1 | hc1
  · rcases h2 with hc2 | hc2
    · rcases h3 with hc3 | hc3
      · rcases hdot with hd | hd | hd
        · exact absurd hd hc1.not_dotted
        · exact absurd hd hc2.not_dotted
        · exact absurd hd hc3.not_dotted
      · exact parseIntTriple_dotted_third c1 c2 c3 hc1 hc2 hc3 _
    · exact parseIntTriple_dotted_second c1 c2 hc1 hc2 _
  · exact parseIntTriple_dotted_first c1 hc1 _

/-- Scanning never matches in a string without `'h'`. -/
theorem findIntTriple_no_h (cs : List Char) (h : ∀ c ∈ cs, c ≠ 'h') :
    findIntTriple cs = none := by
  induction cs with
  | nil => rfl
  | cons c rest ih =>
    have htry : tryIntAt (c :: rest) = none := by
      unfold tryIntAt
      rw [expectChar_neg 'h' c rest (h c (by simp))]
    unfold findIntTriple
    rw [htry]
    exact ih (fun x hx => h x (by simp [hx]))

/-- On the full serialized `hsl(${h}, ${s}%, ${l}%)` string the scan of the
integer-only pattern fails outright when any component carries a decimal
point: position 0 fails by `parseIntTriple_mismatch`, and no later position
even starts with `'h'`. -/
theorem findIntTriple_serialized (c1 c2 c3 : List Char)
    (h1 : DigitStr c1 ∨ DottedStr c1) (h2 : DigitStr c2 ∨ DottedStr c2)
    (h3 : DigitStr c3 ∨ DottedStr c3)
    (hdot : DottedStr c1 ∨ DottedStr c2 ∨ DottedStr c3) :
    findIntTriple ("hsl(".data ++ c1 ++ ", ".data ++ c2 ++ "%, ".data ++ c3 ++ "%)".data) =
      none := by
  have hd1 : "hsl(".data = ['h', 's', 'l', '('] := rfl
  have hd2 : ", ".data = [',', ' '] := rfl
  have hd3 : "%, ".data = ['%', ',', ' '] := rfl
  have hd4 : "%)".data = ['%', ')'] := rfl
  rw [hd1, hd2, hd3, hd4]
  simp only [List.append_assoc, List.cons_append, List.nil_append]
  have htail : ∀ c ∈ c1 ++ ',' :: ' ' :: (c2 ++ '%' :: ',' :: ' ' :: (c3 ++ ['%', ')'])),
      c ≠ 'h' := by
    intro c hc
    rcases List.mem_append.mp hc with h | h
    · exact component_no_h h1 c h
    · rcases List.mem_cons.mp h with h | h
      · exact h ▸ (by decide)
      · rcases List.mem_cons.mp h with h | h
        · exact h ▸ (by decide)
        · rcases List.mem_append.mp h with h | h
          · exact component_no_h h2 c h
          · rcases List.mem_cons.mp h with h | h
            · exact h ▸ (by decide)
            · rcases List.mem_cons.mp h with h | h
              · exact h ▸ (by decide)
              · rcases List.mem_cons.mp h with h | h
                · exact h ▸ (by decide)
                · rcases List.mem_append.mp h with h | h
                  · exact component_no_h h3 c h
                  · rcases List.mem_cons.mp h with h | h
                    · exact h ▸ (by decide)
                    · rcases List.mem_cons.mp h with h | h
                      · exact h ▸ (by decide)
                      · simp at h
  have htry : tryIntAt ('h' :: 's' :: 'l' :: '(' ::
      (c1 ++ ',' :: ' ' :: (c2 ++ '%' :: ',' :: ' ' :: (c3 ++ ['%', ')'])))) = none := by
    unfold tryIntAt
    simp only [expectChar_pos]
    exact parseIntTriple_mismatch c1 c2 c3 h1 h2 h3 hdot
  unfold findIntTriple
  rw [htry]
  apply findIntTriple_no_h
  intro c hc
  rcases List.mem_cons.mp hc with h | h
  · exact h ▸ (by decide)
  · rcases List.mem_cons.mp h with h | h
    · exact h ▸ (by decide)
    · rcases List.mem_cons.mp h with h | h
      · exact h ▸ (by decide)
      · exact htail c h

/-- Claim C10: in the background.js variant, `getAgeColor` serializes the
unrounded interpolated components while `hslToHex` parses with the
integer-only pattern, so for every `minutesInactive` strictly inside zone 2
or zone 3 whose interpolated hue, saturation, or lightness is not an
integer, the composition returns the fallback `#22c55e` instead of the hex
encoding of the computed color. -/
theorem bgColor_fallback (m f s o : ℚ) (hfs : f < s) (hso : s < o)
    (hz : (f < m ∧ m < s) ∨ (s < m ∧ m < o))
    (hni : (ageHSL m f s o).1.den ≠ 1 ∨ (ageHSL m f s o).2.1.den ≠ 1 ∨
      (ageHSL m f s o).2.2.den ≠ 1) :
    hslToHexBg (getAgeColorBg m f s o) = "#22c55e" := by
  have hpos : 0 < (ageHSL m f s o).1 ∧ 0 < (ageHSL m f s o).2.1 ∧
      0 < (ageHSL m f s o).2.2 := by
    rcases hz with ⟨h1, h2⟩ | ⟨h1, h2⟩
    · rw [ageHSL_zone2 m f s o h1 h2.le]
      unfold zone2Color
      have hp : (0:ℚ) < s - f := by linarith
      have ht0 : 0 < (m - f) / (s - f) := div_pos (by linarith) hp
      have ht1 : (m - f) / (s - f) < 1 := by rw [div_lt_one hp]; linarith
      exact ⟨by nlinarith, by nlinarith, by nlinarith⟩
    · rw [ageHSL_zone3 m f s o hfs h1 h2.le]
      unfold zone3Color
      have hp : (0:ℚ) < o - s := by linarith
      have ht0 : 0 < (m - s) / (o - s) := div_pos (by linarith) hp
      have ht1 : (m - s) / (o - s) < 1 := by rw [div_lt_one hp]; linarith
      exact ⟨by nlinarith, by norm_num, by nlinarith⟩
  obtain ⟨hpos1, hpos2, hpos3⟩ := hpos
  have comp : ∀ q : ℚ, 0 < q → DigitStr (jsNumChars q) ∨ DottedStr (jsNumChars q) := by
    intro q hq
    by_cases hden : q.den = 1
    · exact Or.inl (jsNumChars_digitStr q hq hden)
    · exact Or.inr (jsNumChars_dottedStr q hq hden)
  have hdot : DottedStr (jsNumChars (ageHSL m f s o).1) ∨
      DottedStr (jsNumChars (ageHSL m f s o).2.1) ∨
      DottedStr (jsNumChars (ageHSL m f s o).2.2) := by
    rcases hni with h | h | h
    · exact Or.inl (jsNumChars_dottedStr _ hpos1 h)
    · exact Or.inr (Or.inl (jsNumChars_dottedStr _ hpos2 h))
    · exact Or.inr (Or.inr (jsNumChars_dottedStr _ hpos3 h))
  have hfind : findIntTriple (getAgeColorBg m f s o).data = none := by
    simp only [getAgeColorBg]
    have hdata : ∀ l : List Char, (List.asString l).data = l := fun l => rfl
    rw [hdata]
    exact findIntTriple_serialized _ _ _ (comp _ hpos1) (comp _ hpos2) (comp _ hpos3) hdot
  unfold hslToHexBg
  rw [hfind]

/-- Witness for C10 at `minutesInactive = 31` inside zone 2 of the default
thresholds `30 < 120 < 480`: the hue `140 - 100/90 = 1250/9` is not an
integer, so the composition yields the fallback color. -/
theorem bgColor_fallback_witness :
    (ageHSL 31 30 120 480).1.den ≠ 1 ∧
    hslToHexBg (getAgeColorBg 31 30 120 480) = "#22c55e" := by
  have hval : (ageHSL 31 30 120 480).1 = 1250/9 := by
    rw [ageHSL_zone2 31 30 120 480 (by norm_num) (by norm_num)]
    unfold zone2Color
    norm_num
  have hden : (ageHSL 31 30 120 480).1.den ≠ 1 := by
    rw [hval]
    norm_num
  exact ⟨hden, bgColor_fallback 31 30 120 480 (by norm_num) (by norm_num)
    (Or.inl ⟨by norm_num, by norm_num⟩) (Or.inl hden)⟩
